import Mathlib

/-!
Verification development for the `aiappbuild2` chat-interface repository.

The relevant program logic lives in two TypeScript components
(`src/unnamed/part_000` and `src/unnamed/part_001`): a regex-based
fenced-code-block extractor, a filename-inference heuristic, a scripted
generation-stage playback, a character-chunked typing simulator, a
retry wrapper around the network call, and the session mode flags.
Each definition below is a shallow embedding of a named function of the
source; doc comments record the source location.
-/

/-- The backtick character, written by code point to keep sources tidy. -/
def backtick : Char := '\x60'

/-- Three backticks: the fence delimiter of the code-block regexes. -/
def fence : List Char := [backtick, backtick, backtick]

/-- JavaScript regex `\w`: ASCII letters, digits and underscore. -/
def isWordChar (c : Char) : Bool := c.isAlphanum || c = '_'

/-- `startsWithL l p` holds when `p` is an initial segment of `l`. -/
def startsWithL : List Char → List Char → Bool
  | _, [] => true
  | [], _ :: _ => false
  | a :: l, b :: p => a = b && startsWithL l p

/-- `containsSub l p`: `p` occurs as a contiguous substring of `l`
(the semantics of JavaScript `String.prototype.includes`). -/
def containsSub (l p : List Char) : Bool :=
  match l with
  | [] => startsWithL [] p
  | c :: t => startsWithL (c :: t) p || containsSub t p

/-- JavaScript `String.prototype.includes`, on Lean strings. -/
def includesStr (s sub : String) : Bool := containsSub s.toList sub.toList

/-- Whitespace trimmed by JavaScript `String.prototype.trim` (ASCII part). -/
def isTrimChar (c : Char) : Bool :=
  c = ' ' || c = '\t' || c = '\n' || c = '\r' || c = '\x0b' || c = '\x0c'

/-- JavaScript `String.prototype.trim` on character lists. -/
def trimChars (l : List Char) : List Char :=
  ((l.dropWhile isTrimChar).reverse.dropWhile isTrimChar).reverse

/-- JavaScript regex `\s` (ASCII part). -/
def isSpaceChar (c : Char) : Bool :=
  c = ' ' || c = '\t' || c = '\n' || c = '\r' || c = '\x0b' || c = '\x0c'

/-- JavaScript `String.prototype.split` with separator newline. -/
def splitNl : List Char → List (List Char)
  | [] => [[]]
  | c :: rest =>
    if c = '\n' then [] :: splitNl rest
    else
      match splitNl rest with
      | [] => [[c]]
      | h :: t => (c :: h) :: t

/-- Match the opening of a fenced block at the head of `l`, i.e. the prefix
part `(three backticks)(\w+)?\n` of the code-block regex shared by
`parseCodeBlocks` (src/unnamed/part_000 line 163) and `handleFileGeneration`
(src/unnamed/part_001 line 533).  Returns the language tag (possibly empty,
when the optional group did not participate) and the remaining input after
the newline. -/
def matchOpen (l : List Char) : Option (List Char × List Char) :=
  if startsWithL l fence then
    match (l.drop 3).dropWhile isWordChar with
    | '\n' :: r3 => some ((l.drop 3).takeWhile isWordChar, r3)
    | _ => none
  else none

/-- Find the closing fence: the lazy part `([\s\S]*?)(three backticks)` of the
code-block regex.  Returns the content before the first fence occurrence and
the input after it. -/
def findClose : List Char → Option (List Char × List Char)
  | [] => none
  | c :: rest =>
    if startsWithL (c :: rest) fence then some ([], (c :: rest).drop 3)
    else
      match findClose rest with
      | some p => some (c :: p.1, p.2)
      | none => none

/-- One left-to-right pass of the global regex `(fence)(\w+)?\n([\s\S]*?)(fence)`:
at each position try to match; on success continue after the match, otherwise
advance one character.  Fuel-indexed so that it is structurally recursive. -/
def scanBlocksAux : Nat → List Char → List (List Char × List Char)
  | 0, _ => []
  | _, [] => []
  | n + 1, c :: rest =>
    match matchOpen (c :: rest) with
    | some tr =>
      match findClose tr.2 with
      | some p => (tr.1, p.1) :: scanBlocksAux n p.2
      | none => scanBlocksAux n rest
    | none => scanBlocksAux n rest

/-- All matches of the fenced-code-block regex, in source order, as
(language tag, raw content) pairs. -/
def scanBlocks (l : List Char) : List (List Char × List Char) :=
  scanBlocksAux l.length l

/-- `getLanguageExtension` from src/unnamed/part_000 lines 143-160. -/
def getLanguageExtension (language : String) : String :=
  if language = "javascript" then "js"
  else if language = "typescript" then "ts"
  else if language = "python" then "py"
  else if language = "css" then "css"
  else if language = "html" then "html"
  else if language = "json" then "json"
  else if language = "jsx" then "jsx"
  else if language = "tsx" then "tsx"
  else if language = "scss" then "scss"
  else if language = "less" then "less"
  else if language = "sql" then "sql"
  else if language = "yaml" then "yml"
  else if language = "markdown" then "md"
  else "txt"

/-- The block record produced by `parseCodeBlocks` (src/unnamed/part_000). -/
structure CodeBlock where
  language : String
  code : String
  fileName : String
deriving DecidableEq, Repr

/-- `parseCodeBlocks` from src/unnamed/part_000 lines 162-179: run the global
regex, defaulting an absent language tag to "text", trimming the content, and
generating `generated_file_(index+1).(ext)` names. -/
def parseCodeBlocks (content : String) : List CodeBlock :=
  (scanBlocks content.toList).enum.map (fun ib =>
    let language := if ib.2.1 = [] then "text" else String.mk ib.2.1
    { language := language
      code := String.mk (trimChars ib.2.2)
      fileName := "generated_file_" ++ toString (ib.1 + 1) ++ "." ++ getLanguageExtension language })

/-- Case-insensitive prefix test (the regex carries the `i` flag). -/
def startsWithCI : List Char → List Char → Bool
  | _, [] => true
  | [], _ :: _ => false
  | a :: l, b :: p => (a.toLower = b) && startsWithCI l p

/-- The optional literal group `(?:filename:|file:)?` of the filename-comment
regex of `generateFileName` (src/unnamed/part_001 line 310), case-insensitive.
Returns the input after the literal when one of the alternatives matches. -/
def tryFileLiteral (l : List Char) : Option (List Char) :=
  if startsWithCI l ("filename:".toList) then some (l.drop 9)
  else if startsWithCI l ("file:".toList) then some (l.drop 5)
  else none

/-- Characters of the regex class `[a-zA-Z0-9._-]`. -/
def isTokenChar (c : Char) : Bool := c.isAlphanum || c = '.' || c = '_' || c = '-'

/-- Backtracking search for the capture `([a-zA-Z0-9._-]+\.[a-zA-Z0-9]+)`:
try the greedy first part of length `j+1`, requiring a dot right after it and
a nonempty alphanumeric run after the dot; on failure shorten the first part. -/
def tokenSearch (l : List Char) : Nat → Option (List Char)
  | 0 => none
  | j + 1 =>
    match l.drop (j + 1) with
    | '.' :: afterDot =>
      let e := afterDot.takeWhile Char.isAlphanum
      if e.isEmpty then tokenSearch l j
      else some (l.take (j + 1) ++ '.' :: e)
    | _ => tokenSearch l j

/-- Match the filename token `([a-zA-Z0-9._-]+\.[a-zA-Z0-9]+)` at the head of
`l`, with the greedy-plus-backtracking semantics of the JavaScript engine. -/
def matchToken (l : List Char) : Option (List Char) :=
  tokenSearch l (l.takeWhile isTokenChar).length

/-- Continuation of the filename-comment regex after a comment marker:
`\s*(?:filename:|file:)?\s*([a-zA-Z0-9._-]+\.[a-zA-Z0-9]+)`.  When the
optional literal matches but no token follows it, the engine backtracks and
retries with the group skipped. -/
def afterMarker (l : List Char) : Option (List Char) :=
  let l1 := l.dropWhile isSpaceChar
  match tryFileLiteral l1 with
  | some l2 =>
    match matchToken (l2.dropWhile isSpaceChar) with
    | some cap => some cap
    | none => matchToken l1
  | none => matchToken l1

/-- Try the comment-marker alternation `(?:\/\/|\/\*|#|<!--)` at the head of
`l` followed by `afterMarker`.  The four alternatives are mutually exclusive
at any one position, so no inter-alternative backtracking is needed. -/
def tryMarkerAt (l : List Char) : Option (List Char) :=
  if startsWithL l ("//".toList) then afterMarker (l.drop 2)
  else if startsWithL l ("/*".toList) then afterMarker (l.drop 2)
  else if startsWithL l ("#".toList) then afterMarker (l.drop 1)
  else if startsWithL l ("<!--".toList) then afterMarker (l.drop 4)
  else none

/-- `line.match(regex)` for the filename-comment regex of `generateFileName`
(src/unnamed/part_001 line 310): leftmost match, scanning start positions
from the left.  Note the regex is NOT anchored to the start of the line. -/
def matchCommentLine : List Char → Option (List Char)
  | [] => none
  | c :: rest =>
    match tryMarkerAt (c :: rest) with
    | some cap => some cap
    | none => matchCommentLine rest

/-- Step 1 of `generateFileName` (src/unnamed/part_001 lines 308-314): scan
the first 5 lines, returning the first line's regex capture if any. -/
def fileNameFromComment (codeBlock : String) : Option String :=
  (((splitNl codeBlock.toList).take 5).findSome? matchCommentLine).map String.mk

/-- `generateFileName` from src/unnamed/part_001 lines 306-325: the comment
scan, then the content-signature rules in source order. -/
def generateFileName (codeBlock : String) (index : Nat) : String :=
  match fileNameFromComment codeBlock with
  | some name => name
  | none =>
    if includesStr codeBlock "<!DOCTYPE html" || includesStr codeBlock "<html" then "index.html"
    else if includesStr codeBlock "package.json" ||
        (includesStr codeBlock "\"name\"" && includesStr codeBlock "\"version\"") then "package.json"
    else if includesStr codeBlock "body \x7b" || includesStr codeBlock "@media" ||
        includesStr codeBlock "font-family:" then "style.css"
    else if includesStr codeBlock "const express" || includesStr codeBlock "app.listen" then "server.js"
    else if includesStr codeBlock "class " && includesStr codeBlock "constructor" then "app.js"
    else if includesStr codeBlock "function " || includesStr codeBlock "const " ||
        includesStr codeBlock "let " then "script" ++ toString (index + 1) ++ ".js"
    else "file" ++ toString (index + 1) ++ ".txt"

/-- Content-signature rules exactly as the specification lists them in
section 4.2: the package-manifest rule requires both a "name" and a
"version" field and nothing else.  Written from the spec text, for
comparison with the rules embedded from the source. -/
def specContentFileName (codeBlock : String) (index : Nat) : String :=
  if includesStr codeBlock "<!DOCTYPE html" || includesStr codeBlock "<html" then "index.html"
  else if includesStr codeBlock "\"name\"" && includesStr codeBlock "\"version\"" then "package.json"
  else if includesStr codeBlock "body \x7b" || includesStr codeBlock "@media" ||
      includesStr codeBlock "font-family:" then "style.css"
  else if includesStr codeBlock "const express" || includesStr codeBlock "app.listen" then "server.js"
  else if includesStr codeBlock "class " && includesStr codeBlock "constructor" then "app.js"
  else if includesStr codeBlock "function " || includesStr codeBlock "const " ||
      includesStr codeBlock "let " then "script" ++ toString (index + 1) ++ ".js"
  else "file" ++ toString (index + 1) ++ ".txt"

/-- The spec's content-signature rules amended minimally: the
package-manifest rule additionally fires when the text contains the literal
`package.json`, matching the extra disjunct present in the source. -/
def specContentFileNameAmended (codeBlock : String) (index : Nat) : String :=
  if includesStr codeBlock "<!DOCTYPE html" || includesStr codeBlock "<html" then "index.html"
  else if includesStr codeBlock "package.json" ||
      (includesStr codeBlock "\"name\"" && includesStr codeBlock "\"version\"") then "package.json"
  else if includesStr codeBlock "body \x7b" || includesStr codeBlock "@media" ||
      includesStr codeBlock "font-family:" then "style.css"
  else if includesStr codeBlock "const express" || includesStr codeBlock "app.listen" then "server.js"
  else if includesStr codeBlock "class " && includesStr codeBlock "constructor" then "app.js"
  else if includesStr codeBlock "function " || includesStr codeBlock "const " ||
      includesStr codeBlock "let " then "script" ++ toString (index + 1) ++ ".js"
  else "file" ++ toString (index + 1) ++ ".txt"

/-- Message kinds of the `ChatMessage.type` field (both components). -/
inductive MsgType where
  | normal
  | code
  | analysis
  | error
  | system
deriving DecidableEq, Repr

/-- The two mode flags of a session: `isGenerationMode` (initially true) and
`generationComplete` (initially false), in both components. -/
structure SessionFlags where
  isGenerationMode : Bool
  generationComplete : Bool
deriving DecidableEq, Repr

namespace Part0

/-- `GenerationStage` record of src/unnamed/part_000 lines 75-80. -/
structure GenerationStage where
  id : String
  name : String
  description : String
  progress : Nat
deriving DecidableEq, Repr

/-- `GENERATION_STAGES` from src/unnamed/part_000 lines 106-112. -/
def GENERATION_STAGES : List GenerationStage :=
  [ ⟨"analyze", "Analyzing Requirements", "Understanding your project needs", 0⟩,
    ⟨"design", "Designing Architecture", "Creating multi-language structure", 25⟩,
    ⟨"generate", "Generating Files", "Creating comprehensive codebase", 50⟩,
    ⟨"optimize", "Optimizing Code", "Applying best practices", 75⟩,
    ⟨"finalize", "Finalizing Project", "Completing setup", 100⟩ ]

/-- Observable effects of `handleAIResponse` in src/unnamed/part_000, in
program order: stage-pointer updates, per-stage console logs, timer sleeps,
live-coding activation, the two network endpoints, per-block file-creation
callbacks, and message appends. -/
inductive GEv where
  | setStageIdx (i : Nat)
  | logStage (i : Nat)
  | sleep (ms : Nat)
  | setLiveActive (b : Bool)
  | apiCall (endpoint : String)
  | fileGen (name : String)
  | appendMsg (t : MsgType)
deriving DecidableEq, Repr

/-- Recognize the network-call event. -/
def isApiCallEv : GEv → Bool
  | .apiCall _ => true
  | _ => false

/-- Recognize a file-creation callback event. -/
def isFileGenEv : GEv → Bool
  | .fileGen _ => true
  | _ => false

/-- The scripted stage playback of `handleAIResponse`
(src/unnamed/part_000 lines 462-466): stages 0 .. length-2, each with a
console log and an awaited 800 ms delay. -/
def genStagePlayback : List GEv :=
  ((List.range (GENERATION_STAGES.length - 1)).map
    (fun i => [GEv.setStageIdx i, GEv.logStage i, GEv.sleep 800])).flatten

/-- Program-order effect trace of the generation branch of
`handleAIResponse` (src/unnamed/part_000 lines 460-471) up to and including
the issuing of the network call: the full scripted playback, then the final
stage, live-coding activation, and only then the `/api/ask` call. -/
def genBranchPrefix : List GEv :=
  genStagePlayback ++
    [GEv.setStageIdx (GENERATION_STAGES.length - 1), GEv.setLiveActive true,
     GEv.apiCall "/api/ask"]

/-- `handleAIResponse` of src/unnamed/part_000 lines 454-537 as a transition
on the mode flags, emitting its effect trace.  `outcome` abstracts the
overall result of `makeAPICall`: `none` when every attempt failed (the catch
branch appends one error message), `some resp` for a success carrying the
response text.  In the generation branch a success always sets
`generationComplete := true` and `isGenerationMode := false` (lines 480-482),
regardless of the number of extracted blocks. -/
def handleAIResponse (s : SessionFlags) (outcome : Option String) :
    List GEv × SessionFlags :=
  if s.isGenerationMode && !s.generationComplete then
    match outcome with
    | none => (genBranchPrefix ++ [GEv.appendMsg MsgType.error], s)
    | some resp =>
      (genBranchPrefix ++ (parseCodeBlocks resp).map (fun b => GEv.fileGen b.fileName) ++
        [GEv.setLiveActive false, GEv.appendMsg MsgType.analysis], ⟨false, true⟩)
  else
    match outcome with
    | none => ([GEv.apiCall "/api/chat", GEv.appendMsg MsgType.error], s)
    | some _ => ([GEv.apiCall "/api/chat", GEv.appendMsg MsgType.normal], s)

end Part0

namespace Part1

/-- The keyword list of `isCodeGenerationRequest`
(src/unnamed/part_001 lines 415-420). -/
def codeKeywords : List String :=
  ["create", "build", "make", "generate", "develop", "write", "code", "app",
   "application", "website", "web", "function", "component", "class", "module",
   "script", "program", "todo", "calculator", "game", "dashboard", "form",
   "login", "signup", "api", "database", "add", "implement", "design", "setup",
   "configure"]

/-- `isCodeGenerationRequest` from src/unnamed/part_001 lines 411-431:
lower-case and trim the input, then test whether any keyword occurs as a
substring. -/
def isCodeGenerationRequest (input : String) : Bool :=
  let lowerInput := trimChars (input.toList.map Char.toLower)
  codeKeywords.any (fun kw => containsSub lowerInput kw.toList)

/-- Observable effects of `handleAIResponse` and its callees in
src/unnamed/part_001, in program order. -/
inductive Ev where
  | setStage (s : String)
  | logInfo
  | logSuccess
  | logError
  | fetchAttempt (endpoint : String)
  | sleep (ms : Nat)
  | fileGen (name : String)
  | appendMsg (t : MsgType)
  | setGenerationComplete (b : Bool)
  | setIsGenerationMode (b : Bool)
deriving DecidableEq, Repr

/-- Recognize a `setCurrentStage` event. -/
def isSetStageEv : Ev → Bool
  | .setStage _ => true
  | _ => false

/-- Recognize a network-call event. -/
def isFetchEv : Ev → Bool
  | .fetchAttempt _ => true
  | _ => false

/-- Recognize an `onFileGenerated` callback event. -/
def isFileGenEv : Ev → Bool
  | .fileGen _ => true
  | _ => false

/-- Recognize the append of an error-kind message. -/
def isErrorMsgEv : Ev → Bool
  | .appendMsg MsgType.error => true
  | _ => false

/-- Recognize a backoff sleep event. -/
def isSleepEv : Ev → Bool
  | .sleep _ => true
  | _ => false

/-- `handleFileGeneration` from src/unnamed/part_001 lines 510-575, for one
attempt.  `outcome` is the fetch result (`none`: network error or non-ok
status, which throws before any extraction; `some resp`: the response text).
`cancelled` is the value of `token.cancelled` during the synchronous block
loop (line 538): when set, the loop breaks before creating any file.  The
result is (effect trace, flags after, attempt succeeded).  The flags flip to
chat mode only when at least one file was created (lines 571-574). -/
def handleFileGeneration (s : SessionFlags) (outcome : Option String)
    (cancelled : Bool) : List Ev × SessionFlags × Bool :=
  let pre := [Ev.setStage "Generating code...", Ev.logInfo,
    Ev.fetchAttempt "/api/claude-proxy"]
  match outcome with
  | none => (pre, s, false)
  | some aiResponse =>
    let blocks := scanBlocks aiResponse.toList
    let fileEvs := if cancelled then [] else
      blocks.enum.map (fun ib => Ev.fileGen (generateFileName (String.mk ib.2.2) ib.1))
    let filesCount := if cancelled then 0 else blocks.length
    let msgT := if blocks.isEmpty then MsgType.normal else MsgType.code
    let flagEvs := if filesCount > 0 then
      [Ev.setGenerationComplete true, Ev.setIsGenerationMode false] else []
    (pre ++ [Ev.logSuccess] ++ fileEvs ++ [Ev.appendMsg msgT] ++ flagEvs,
     (if filesCount > 0 then ⟨false, true⟩ else s), true)

/-- `handleChatResponse` from src/unnamed/part_001 lines 577-605, for one
attempt. -/
def handleChatResponse (outcome : Option String) : List Ev × Bool :=
  let pre := [Ev.logInfo, Ev.fetchAttempt "/api/claude-proxy"]
  match outcome with
  | none => (pre, false)
  | some _ => (pre ++ [Ev.logSuccess, Ev.appendMsg MsgType.normal], true)

/-- The thunk passed to `retry` in `handleAIResponse`
(src/unnamed/part_001 lines 445-456): route by keyword detection — the mode
flags are not consulted — then run the chosen branch. -/
def attemptRun (s : SessionFlags) (input : String) (outcome : Option String) :
    List Ev × SessionFlags × Bool :=
  if isCodeGenerationRequest input then handleFileGeneration s outcome false
  else
    let r := handleChatResponse outcome
    (r.1, s, r.2)

/-- The loop of `useRetry` (src/unnamed/part_001 lines 141-157) with
`maxRetries = 3`: attempts are indexed by `i`; a failure before the last
attempt sleeps `1000 * 2 ^ i` ms and re-runs the whole thunk.  `o` gives the
fetch outcome of each attempt.  `fuel` counts the remaining attempts
(initially 4 = maxRetries + 1); effects of failed attempts accumulate. -/
def retryLoopAux (input : String) (o : Nat → Option String) :
    Nat → SessionFlags → Nat → List Ev × SessionFlags × Bool
  | 0, s, _ => ([], s, false)
  | fuel + 1, s, i =>
    let a := attemptRun s input (o i)
    if a.2.2 then (a.1, a.2.1, true)
    else if fuel = 0 then (a.1, a.2.1, false)
    else
      let r := retryLoopAux input o fuel a.2.1 (i + 1)
      (a.1 ++ Ev.sleep (1000 * 2 ^ i) :: r.1, r.2)

/-- The full retry run started at attempt 0 with 4 attempts available. -/
def retryRun (s : SessionFlags) (input : String) (o : Nat → Option String) :
    List Ev × SessionFlags × Bool :=
  retryLoopAux input o 4 s 0

/-- `handleAIResponse` from src/unnamed/part_001 lines 433-484: run the retry
loop over the routed branch; on overall success log success, otherwise append
exactly one error-kind message and log the error (the catch branch). -/
def handleAIResponse (s : SessionFlags) (input : String)
    (o : Nat → Option String) : List Ev × SessionFlags :=
  let r := retryRun s input o
  if r.2.2 then (r.1 ++ [Ev.logSuccess], r.2.1)
  else (r.1 ++ [Ev.appendMsg MsgType.error, Ev.logError], r.2.1)

/-- Chunk start offsets of the `simulateTyping` loop
(src/unnamed/part_001 line 619): `i = 0, 20, 40, ...` while `i < length`. -/
def typingChunkStarts (n : Nat) : List Nat :=
  (List.range ((n + 19) / 20)).map (fun k => 20 * k)

/-- The sequence of `setLiveCoding` buffer/progress updates issued by the
loop of `simulateTyping` (src/unnamed/part_001 lines 619-630): after the
chunk starting at `i` the buffer holds the first `i + 20` characters and the
reported progress is `min ((i / length) * 100) 100`, computed here in exact
rational arithmetic. -/
def typingUpdates (code : List Char) : List (List Char × ℚ) :=
  (typingChunkStarts code.length).map (fun i =>
    (code.take (i + 20), min (((i : ℚ) / (code.length : ℚ)) * 100) 100))

/-- State of an in-flight `simulateTyping` replay together with the
`CancelToken` flag of its session (src/unnamed/part_001 lines 74-77). -/
structure TypingMachine where
  pos : Nat
  bufferContent : List Char
  cancelled : Bool
deriving DecidableEq, Repr

/-- One iteration of the `simulateTyping` loop
(src/unnamed/part_001 lines 619-630).  The loop body contains no check of
the cancellation flag, so the step function does not consult `cancelled`. -/
def typingStep (code : List Char) (st : TypingMachine) : TypingMachine :=
  if st.pos < code.length then
    { st with bufferContent := code.take (st.pos + 20), pos := st.pos + 20 }
  else st

/-- `cancelGeneration` (src/unnamed/part_001 lines 667-678) as seen by the
typing machine: it sets the token's `cancelled` flag (and hides the display)
but does not touch the buffer content. -/
def cancelStep (st : TypingMachine) : TypingMachine := { st with cancelled := true }

end Part1

/-- No backtick occurs in the list (so no fence can start inside it). -/
abbrev noTick (l : List Char) : Prop := ∀ c ∈ l, c ≠ backtick

/-- Every character is a `\w` character (a legal language tag). -/
abbrev allWord (l : List Char) : Prop := ∀ c ∈ l, isWordChar c = true

/-- One well-formed fenced block of the input, together with the free text
that follows it: `(fence)tag\n body (fence) sep`. -/
structure FencedSeg where
  tag : List Char
  body : List Char
  sep : List Char

/-- Well-formedness of one segment: the tag is made of word characters and
neither the body nor the following free text contains a backtick. -/
abbrev segOk (s : FencedSeg) : Prop := allWord s.tag ∧ noTick s.body ∧ noTick s.sep

/-- Render one segment to text. -/
def renderSeg (s : FencedSeg) : List Char :=
  fence ++ s.tag ++ '\n' :: (s.body ++ fence ++ s.sep)

/-- Optional unterminated trailing opener: a fence and tag and newline with a
body that never closes. -/
def renderTail : Option (List Char × List Char) → List Char
  | none => []
  | some tb => fence ++ tb.1 ++ '\n' :: tb.2

/-- Well-formedness of the optional unterminated tail. -/
abbrev sufOk : Option (List Char × List Char) → Prop
  | none => True
  | some tb => allWord tb.1 ∧ noTick tb.2

/-- An input consisting of leading free text, `N` well-formed fenced blocks
each followed by free text, and optionally one unterminated opener at the
end. -/
def renderInput (pre : List Char) (segs : List FencedSeg)
    (suf : Option (List Char × List Char)) : List Char :=
  pre ++ (segs.map renderSeg).flatten ++ renderTail suf

/-- A 40-character code text used to exercise two chunks of the typing loop. -/
def c6Code : List Char := "abcdefghijklmnopqrstuvwxyz0123456789abcd".toList

/-- A mocked backend response carrying one fenced html block. -/
def c2Response : String := "```html\n<p>hi</p>\n```"

/-- Backend outcome function: every attempt succeeds with `c2Response`. -/
def c2Outcomes : Nat → Option String := fun _ => some c2Response

/-- Outcome function for one transport failure followed by success. -/
def c8Outcomes : Nat → Option String := fun i => if i = 0 then none else some "hello"

/-- Render a list of newline-free lines, each terminated by a newline, as
the leading lines of a code block. -/
def renderLines (ls : List (List Char)) : List Char :=
  (ls.map (fun l => l ++ ['\n'])).flatten

theorem startsWithL_refl_append (p l : List Char) : startsWithL (p ++ l) p = true := by
  induction p with
  | nil => simp [startsWithL]
  | cons c t ih => simp [startsWithL, ih]

theorem startsWithL_fence_false_head {c : Char} (l : List Char) (h : c ≠ backtick) :
    startsWithL (c :: l) fence = false := by
  simp [startsWithL, fence, h]

theorem matchOpen_none_of_head {c : Char} (l : List Char) (h : c ≠ backtick) :
    matchOpen (c :: l) = none := by
  simp [matchOpen, startsWithL_fence_false_head l h]

theorem matchOpen_none_of_not_fence {l : List Char} (h : startsWithL l fence = false) :
    matchOpen l = none := by
  simp [matchOpen, h]

theorem takeWhile_append_all {p : Char → Bool} {t : List Char} (x : Char) (xs : List Char)
    (ht : ∀ c ∈ t, p c = true) (hx : p x = false) :
    (t ++ x :: xs).takeWhile p = t := by
  induction t with
  | nil => simp [List.takeWhile, hx]
  | cons c t ih =>
    have hc : p c = true := ht c (by simp)
    simp [List.takeWhile, hc, ih (fun d hd => ht d (by simp [hd]))]

theorem dropWhile_append_all {p : Char → Bool} {t : List Char} (x : Char) (xs : List Char)
    (ht : ∀ c ∈ t, p c = true) (hx : p x = false) :
    (t ++ x :: xs).dropWhile p = x :: xs := by
  induction t with
  | nil => simp [List.dropWhile, hx]
  | cons c t ih =>
    have hc : p c = true := ht c (by simp)
    simp [List.dropWhile, hc, ih (fun d hd => ht d (by simp [hd]))]

theorem matchOpen_block {tag : List Char} (X : List Char) (ht : allWord tag) :
    matchOpen (fence ++ tag ++ '\n' :: X) = some (tag, X) := by
  have hnl : isWordChar '\n' = false := by decide
  have h1 : startsWithL (fence ++ (tag ++ '\n' :: X)) fence = true :=
    startsWithL_refl_append fence (tag ++ '\n' :: X)
  have hdrop : (fence ++ tag ++ '\n' :: X).drop 3 = tag ++ '\n' :: X := by
    simp [fence]
  simp only [matchOpen, List.append_assoc] at *
  rw [h1]
  simp only [hdrop, dropWhile_append_all '\n' X ht hnl, takeWhile_append_all '\n' X ht hnl]
  simp

theorem findClose_none_of_noTick {l : List Char} (h : noTick l) : findClose l = none := by
  induction l with
  | nil => rfl
  | cons c t ih =>
    have hc : c ≠ backtick := h c (by simp)
    have : startsWithL (c :: t) fence = false := startsWithL_fence_false_head t hc
    simp [findClose, this, ih (fun d hd => h d (by simp [hd]))]

theorem findClose_body {body : List Char} (rest : List Char) (hb : noTick body) :
    findClose (body ++ fence ++ rest) = some (body, rest) := by
  induction body with
  | nil =>
    show findClose (fence ++ rest) = some ([], rest)
    rw [show fence ++ rest = backtick :: backtick :: backtick :: rest from rfl]
    simp only [findClose]
    simp [startsWithL, fence]
  | cons c t ih =>
    have hc : c ≠ backtick := hb c (by simp)
    have ih2 := ih (fun d hd => hb d (by simp [hd]))
    have hs : startsWithL (c :: (t ++ fence ++ rest)) fence = false :=
      startsWithL_fence_false_head _ hc
    show findClose (c :: (t ++ fence ++ rest)) = some (c :: t, rest)
    simp only [findClose]
    simp only [List.append_assoc] at hs ih2 ⊢
    rw [hs, ih2]
    simp

theorem startsWithL_length {l p : List Char} (h : startsWithL l p = true) :
    p.length ≤ l.length := by
  induction p generalizing l with
  | nil => simp
  | cons b q ih =>
    cases l with
    | nil => simp [startsWithL] at h
    | cons a t =>
      simp only [startsWithL, Bool.and_eq_true] at h
      have := ih h.2
      simp [Nat.succ_le_succ this]

theorem dropWhile_length_le (p : Char → Bool) (l : List Char) :
    (l.dropWhile p).length ≤ l.length := by
  induction l with
  | nil => simp
  | cons c t ih =>
    by_cases h : p c
    · simp only [List.dropWhile, h]
      exact ih.trans (by simp)
    · simp [List.dropWhile, h]

theorem matchOpen_some_length {l t r : List Char} (h : matchOpen l = some (t, r)) :
    r.length + 4 ≤ l.length := by
  unfold matchOpen at h
  split at h
  · next hs =>
    have h3 : 3 ≤ l.length := by simpa [fence] using startsWithL_length hs
    split at h
    · next r3 heq =>
      simp only [Option.some.injEq, Prod.mk.injEq] at h
      have hlen : ((l.drop 3).dropWhile isWordChar).length ≤ (l.drop 3).length :=
        dropWhile_length_le _ _
      rw [heq] at hlen
      simp only [List.length_cons, List.length_drop] at hlen
      obtain ⟨h1, h2⟩ := h
      subst h2
      omega
    · next => simp at h
  · simp at h

theorem findClose_some_length {l c r : List Char} (h : findClose l = some (c, r)) :
    r.length + 3 ≤ l.length := by
  induction l generalizing c r with
  | nil => simp [findClose] at h
  | cons a t ih =>
    simp only [findClose] at h
    by_cases hs : startsWithL (a :: t) fence = true
    · rw [if_pos hs] at h
      simp only [Option.some.injEq, Prod.mk.injEq] at h
      have h3 : 3 ≤ (a :: t).length := by simpa [fence] using startsWithL_length hs
      have := h.2
      subst this
      simp only [List.length_drop]
      omega
    · rw [if_neg hs] at h
      rcases hf : findClose t with _ | ⟨p1, p2⟩
      · rw [hf] at h; simp at h
      · rw [hf] at h
        simp only [Option.some.injEq, Prod.mk.injEq] at h
        have := ih hf
        have hr := h.2
        subst hr
        simp only [List.length_cons]
        omega

theorem scanBlocksAux_congr : ∀ (n m : Nat) (l : List Char),
    l.length ≤ n → l.length ≤ m → scanBlocksAux n l = scanBlocksAux m l := by
  intro n
  induction n with
  | zero =>
    intro m l hn hm
    have : l = [] := List.length_eq_zero.mp (Nat.le_zero.mp hn)
    subst this
    cases m <;> rfl
  | succ n ih =>
    intro m l hn hm
    cases l with
    | nil => cases m <;> rfl
    | cons c rest =>
      cases m with
      | zero => simp at hm
      | succ m' =>
        simp only [scanBlocksAux]
        rcases ho : matchOpen (c :: rest) with _ | ⟨t, r⟩
        · simp only []
          exact ih m' rest (by simp at hn; omega) (by simp at hm; omega)
        · rcases hc : findClose r with _ | ⟨content, r2⟩
          · simp only [hc]
            exact ih m' rest (by simp at hn; omega) (by simp at hm; omega)
          · simp only [hc]
            have l1 := matchOpen_some_length ho
            have l2 := findClose_some_length hc
            simp only [List.length_cons] at hn hm l1
            have heq := ih m' r2 (by omega) (by omega)
            rw [heq]

theorem scanBlocks_cons_none {c : Char} {rest : List Char}
    (h : matchOpen (c :: rest) = none) : scanBlocks (c :: rest) = scanBlocks rest := by
  simp only [scanBlocks, List.length_cons, scanBlocksAux, h]

theorem scanBlocks_cons_noclose {c : Char} {rest t r : List Char}
    (h : matchOpen (c :: rest) = some (t, r)) (h2 : findClose r = none) :
    scanBlocks (c :: rest) = scanBlocks rest := by
  simp only [scanBlocks, List.length_cons, scanBlocksAux, h, h2]

theorem scanBlocks_cons_close {c : Char} {rest t r content r2 : List Char}
    (h : matchOpen (c :: rest) = some (t, r)) (h2 : findClose r = some (content, r2)) :
    scanBlocks (c :: rest) = (t, content) :: scanBlocks r2 := by
  have l1 := matchOpen_some_length h
  have l2 := findClose_some_length h2
  simp only [List.length_cons] at l1
  simp only [scanBlocks, List.length_cons, scanBlocksAux, h, h2]
  rw [scanBlocksAux_congr rest.length r2.length r2 (by omega) (by omega)]

theorem scanBlocks_skip {p : List Char} (l : List Char) (h : noTick p) :
    scanBlocks (p ++ l) = scanBlocks l := by
  induction p with
  | nil => simp
  | cons c t ih =>
    have hc : c ≠ backtick := h c (by simp)
    rw [List.cons_append, scanBlocks_cons_none (matchOpen_none_of_head _ hc)]
    exact ih (fun d hd => h d (by simp [hd]))

theorem scanBlocks_nil_of_noTick {l : List Char} (h : noTick l) : scanBlocks l = [] := by
  have := scanBlocks_skip (p := l) [] h
  simpa using this

theorem word_ne_backtick {c : Char} (h : isWordChar c = true) : c ≠ backtick := by
  intro e
  subst e
  simp [isWordChar, backtick] at h

theorem scanBlocks_block {tag body : List Char} (rest : List Char)
    (ht : allWord tag) (hb : noTick body) :
    scanBlocks (fence ++ tag ++ '\n' :: (body ++ fence ++ rest)) =
      (tag, body) :: scanBlocks rest := by
  have h1 : matchOpen (fence ++ tag ++ '\n' :: (body ++ fence ++ rest)) =
      some (tag, body ++ fence ++ rest) := matchOpen_block _ ht
  have h2 : findClose (body ++ fence ++ rest) = some (body, rest) := findClose_body rest hb
  have hshape : fence ++ tag ++ '\n' :: (body ++ fence ++ rest) =
      backtick :: (backtick :: backtick :: (tag ++ '\n' :: (body ++ fence ++ rest))) := by
    simp [fence]
  rw [hshape] at h1 ⊢
  exact scanBlocks_cons_close h1 h2

theorem startsWithL_two_ticks_false {X : List Char}
    (h : ∀ c, X.head? = some c → c ≠ backtick) :
    startsWithL (backtick :: backtick :: X) fence = false := by
  cases X with
  | nil => simp [startsWithL, fence]
  | cons x xs =>
    have hx : x ≠ backtick := h x rfl
    simp [startsWithL, fence, hx]

theorem startsWithL_one_tick_false {X : List Char}
    (h : ∀ c, X.head? = some c → c ≠ backtick) :
    startsWithL (backtick :: X) fence = false := by
  cases X with
  | nil => simp [startsWithL, fence]
  | cons x xs =>
    have hx : x ≠ backtick := h x rfl
    simp [startsWithL, fence, hx]

theorem scanBlocks_unterminated {tag body : List Char} (ht : allWord tag) (hb : noTick body) :
    scanBlocks (fence ++ tag ++ '\n' :: body) = [] := by
  have h1 : matchOpen (fence ++ tag ++ '\n' :: body) = some (tag, body) := matchOpen_block _ ht
  have h2 : findClose body = none := findClose_none_of_noTick hb
  have hhead : ∀ c, (tag ++ '\n' :: body).head? = some c → c ≠ backtick := by
    intro c hc
    cases tag with
    | nil =>
      simp at hc
      subst hc
      decide
    | cons a t =>
      simp at hc
      subst hc
      exact word_ne_backtick (ht a (by simp))
  have hshape : fence ++ tag ++ '\n' :: body =
      backtick :: (backtick :: backtick :: (tag ++ '\n' :: body)) := by
    simp [fence]
  rw [hshape] at h1 ⊢
  rw [scanBlocks_cons_noclose h1 h2]
  rw [scanBlocks_cons_none (matchOpen_none_of_not_fence (startsWithL_two_ticks_false hhead))]
  rw [scanBlocks_cons_none (matchOpen_none_of_not_fence (startsWithL_one_tick_false hhead))]
  apply scanBlocks_nil_of_noTick
  intro c hc
  rcases List.mem_append.mp hc with hm | hm
  · exact word_ne_backtick (ht c hm)
  · rcases List.mem_cons.mp hm with hm2 | hm2
    · subst hm2; decide
    · exact hb c hm2

theorem scanBlocks_block_assoc {tag body : List Char} (rest : List Char)
    (ht : allWord tag) (hb : noTick body) :
    scanBlocks (fence ++ (tag ++ '\n' :: (body ++ (fence ++ rest)))) =
      (tag, body) :: scanBlocks rest := by
  have := scanBlocks_block rest ht hb
  simpa [List.append_assoc] using this

theorem scanBlocks_renderInput (pre : List Char) (segs : List FencedSeg)
    (suf : Option (List Char × List Char))
    (hpre : noTick pre) (hsegs : ∀ s ∈ segs, segOk s) (hsuf : sufOk suf) :
    scanBlocks (renderInput pre segs suf) = segs.map (fun s => (s.tag, s.body)) := by
  induction segs generalizing pre with
  | nil =>
    unfold renderInput
    simp only [List.map_nil, List.flatten_nil, List.nil_append, List.append_nil]
    rw [scanBlocks_skip _ hpre]
    cases suf with
    | none => rfl
    | some tb =>
      obtain ⟨h1, h2⟩ := hsuf
      have := scanBlocks_unterminated h1 h2
      simpa [List.append_assoc] using this
  | cons s rest ih =>
    obtain ⟨hst, hsb, hss⟩ := hsegs s (by simp)
    have ih2 := ih s.sep hss (fun x hx => hsegs x (by simp [hx]))
    unfold renderInput at ih2 ⊢
    simp only [List.map_cons, List.flatten_cons, renderSeg, List.append_assoc,
      List.cons_append] at ih2 ⊢
    rw [scanBlocks_skip _ hpre, scanBlocks_block_assoc _ hst hsb, ih2]

theorem enum_map_snd_map {α β : Type} (l : List α) (h : α → β) :
    l.enum.map (fun ib => h ib.2) = l.map h := by
  rw [show (fun ib : Nat × α => h ib.2) = h ∘ Prod.snd from rfl, ← List.map_map,
    List.enum_map_snd]

theorem parseCodeBlocks_proj (s : String) :
    (parseCodeBlocks s).map (fun b => (b.language, b.code)) =
      (scanBlocks s.toList).map (fun tb =>
        ((if tb.1 = [] then "text" else String.mk tb.1), String.mk (trimChars tb.2))) := by
  unfold parseCodeBlocks
  rw [List.map_map]
  exact enum_map_snd_map (scanBlocks s.toList) (fun tb =>
    ((if tb.1 = [] then "text" else String.mk tb.1), String.mk (trimChars tb.2)))

/-- C1: on any input made of `N` well-formed fenced blocks separated by
fence-free text (and possibly ending in an unterminated opener),
`parseCodeBlocks` returns exactly `N` blocks in source order; each block's
language is the tag when present and "text" otherwise, and each block's code
is the body trimmed of leading and trailing whitespace.  The unterminated
opener contributes no block, and `N = 0` yields the empty (non-error)
result. -/
theorem c1_extractor_wellformed (pre : List Char) (segs : List FencedSeg)
    (suf : Option (List Char × List Char))
    (hpre : noTick pre) (hsegs : ∀ s ∈ segs, segOk s) (hsuf : sufOk suf) :
    (parseCodeBlocks (String.mk (renderInput pre segs suf))).length = segs.length ∧
    (parseCodeBlocks (String.mk (renderInput pre segs suf))).map
        (fun b => (b.language, b.code)) =
      segs.map (fun s =>
        ((if s.tag = [] then "text" else String.mk s.tag), String.mk (trimChars s.body))) := by
  have hs : scanBlocks (String.mk (renderInput pre segs suf)).toList =
      segs.map (fun s => (s.tag, s.body)) := scanBlocks_renderInput pre segs suf hpre hsegs hsuf
  constructor
  · unfold parseCodeBlocks
    rw [hs]
    simp
  · rw [parseCodeBlocks_proj, hs, List.map_map]
    rfl

/-- Witness for C1 at a concrete input with two well-formed blocks, free
text around them, and an unterminated trailing opener. -/
theorem c1_extractor_wellformed_witness :
    noTick "Intro ".toList ∧
    (parseCodeBlocks (String.mk (renderInput "Intro ".toList
        [⟨"js".toList, " let x = 1 ".toList, " and ".toList⟩,
         ⟨[], "<p></p>".toList, " tail".toList⟩]
        (some ("css".toList, "body".toList))))).length = 2 ∧
    (parseCodeBlocks (String.mk (renderInput "Intro ".toList
        [⟨"js".toList, " let x = 1 ".toList, " and ".toList⟩,
         ⟨[], "<p></p>".toList, " tail".toList⟩]
        (some ("css".toList, "body".toList))))).map (fun b => (b.language, b.code)) =
      [("js", "let x = 1"), ("text", "<p></p>")] := by
  have h := c1_extractor_wellformed "Intro ".toList
    [⟨"js".toList, " let x = 1 ".toList, " and ".toList⟩,
     ⟨[], "<p></p>".toList, " tail".toList⟩]
    (some ("css".toList, "body".toList))
    (by decide) (by decide) (by decide)
  refine ⟨by decide, h.1, ?_⟩
  rw [h.2]
  decide

theorem splitNl_split_at_nl {a : List Char} (b : List Char) (h : ∀ c ∈ a, c ≠ '\n') :
    splitNl (a ++ '\n' :: b) = a :: splitNl b := by
  induction a with
  | nil => simp [splitNl]
  | cons c t ih =>
    have hc : c ≠ '\n' := h c (by simp)
    have ih2 := ih (fun d hd => h d (by simp [hd]))
    simp only [List.cons_append, splitNl, hc, if_false, List.append_eq, ih2]

theorem splitNl_no_nl {l : List Char} (h : ∀ c ∈ l, c ≠ '\n') : splitNl l = [l] := by
  induction l with
  | nil => rfl
  | cons c t ih =>
    have hc : c ≠ '\n' := h c (by simp)
    have ih2 := ih (fun d hd => h d (by simp [hd]))
    simp only [splitNl, hc, if_false, ih2]

theorem tryMarkerAt_none_of_head {c : Char} (t : List Char)
    (h1 : c ≠ '/') (h2 : c ≠ '#') (h3 : c ≠ '<') : tryMarkerAt (c :: t) = none := by
  simp [tryMarkerAt, startsWithL, h1, h2, h3]

theorem matchCommentLine_skip {p : List Char} (l : List Char)
    (h : ∀ c ∈ p, c ≠ '/' ∧ c ≠ '#' ∧ c ≠ '<') :
    matchCommentLine (p ++ l) = matchCommentLine l := by
  induction p with
  | nil => simp
  | cons c t ih =>
    obtain ⟨h1, h2, h3⟩ := h c (by simp)
    have ih2 := ih (fun d hd => h d (by simp [hd]))
    simp only [List.cons_append, matchCommentLine, tryMarkerAt_none_of_head _ h1 h2 h3,
      List.append_eq, ih2]

theorem splitNl_renderLines (ls : List (List Char)) (tail : List Char)
    (h : ∀ p ∈ ls, ∀ c ∈ p, c ≠ '\n') :
    splitNl (renderLines ls ++ tail) = ls ++ splitNl tail := by
  induction ls with
  | nil => simp [renderLines]
  | cons p t ih =>
    have hshape : renderLines (p :: t) ++ tail = p ++ '\n' :: (renderLines t ++ tail) := by
      simp [renderLines, List.append_assoc]
    rw [hshape, splitNl_split_at_nl _ (h p (by simp)), ih (fun q hq => h q (by simp [hq]))]
    rfl

/-- C3 counterexample: the block whose first line is `// header.txt` and
whose second line is the explicit comment `// filename: foo.py` contains
that comment verbatim within its first 5 lines, yet the inferencer returns
`header.txt`: the scan returns the capture of the FIRST matching line, and
line 1 already matches the (unanchored) comment regex. -/
theorem c3_counterexample_earlier_line_preempts :
    matchCommentLine "// filename: foo.py".toList = some "foo.py".toList ∧
    generateFileName "// header.txt\n// filename: foo.py" 0 = "header.txt" := by
  refine ⟨by decide, by decide⟩

/-- C3 as amended: for a block containing the explicit comment
`// filename: foo.py` on any of its first 5 lines, PROVIDED no earlier line
matches the comment regex, the inferencer returns exactly `foo.py` verbatim,
whatever content follows — priority over every content-signature rule and
over the position index. -/
theorem c3_comment_first_match_amended (pres : List (List Char)) (rest : String)
    (index : Nat) (hlen : pres.length ≤ 4)
    (hpre : ∀ p ∈ pres, matchCommentLine p = none ∧ ∀ c ∈ p, c ≠ '\n') :
    generateFileName (String.mk (renderLines pres ++
      "// filename: foo.py\n".toList ++ rest.toList)) index = "foo.py" := by
  unfold generateFileName fileNameFromComment
  rw [show (String.mk (renderLines pres ++ "// filename: foo.py\n".toList ++
      rest.toList)).toList =
      renderLines pres ++ ("// filename: foo.py".toList ++ '\n' :: rest.toList) from by
    simp [List.append_assoc]]
  rw [splitNl_renderLines pres _ (fun p hp => (hpre p hp).2)]
  rw [splitNl_split_at_nl _ (by decide)]
  rw [List.take_append_eq_append_take, List.take_of_length_le (by omega), List.findSome?_append]
  rw [show List.findSome? matchCommentLine pres = none from
    List.findSome?_eq_none_iff.mpr (fun p hp => (hpre p hp).1)]
  rw [show (5 : Nat) - pres.length = (4 - pres.length) + 1 from by omega, List.take_succ_cons]
  rw [List.findSome?_cons]
  rw [show matchCommentLine "// filename: foo.py".toList = some "foo.py".toList from by decide]
  rfl

/-- Witness for the amended C3: one non-matching lead line, then the
explicit comment, then content that every content-signature rule would
otherwise claim. -/
theorem c3_comment_first_match_amended_witness :
    (∀ p ∈ [("x = 1".toList)], matchCommentLine p = none ∧ ∀ c ∈ p, c ≠ '\n') ∧
    generateFileName (String.mk (renderLines [("x = 1".toList)] ++
      "// filename: foo.py\n".toList ++ "<!DOCTYPE html><html>".toList)) 0 = "foo.py" :=
  ⟨by decide,
   c3_comment_first_match_amended [("x = 1".toList)] "<!DOCTYPE html><html>" 0
     (by decide) (by decide)⟩

/-- C9 counterexample: the comment-marker regex is not anchored to the line
start; the `//` inside the URL of a plain assignment line fires the rule, and
`generateFileName` returns the host-derived token `example.com`. -/
theorem c9_counterexample_mid_line_marker :
    fileNameFromComment "const url = http://example.com/page.html" = some "example.com" ∧
    generateFileName "const url = http://example.com/page.html" 0 = "example.com" := by
  constructor
  · decide
  · decide

/-- C9 as amended: the comment rule fires for a marker at ANY position in one
of the first 5 lines; any prefix free of marker-starting characters before
`// filename: foo.py` still yields `foo.py`. -/
theorem c9_marker_anywhere (p : List Char)
    (h : ∀ c ∈ p, c ≠ '/' ∧ c ≠ '#' ∧ c ≠ '<' ∧ c ≠ '\n') :
    fileNameFromComment (String.mk (p ++ "// filename: foo.py".toList)) = some "foo.py" := by
  unfold fileNameFromComment
  rw [show (String.mk (p ++ "// filename: foo.py".toList)).toList =
      p ++ "// filename: foo.py".toList from rfl]
  rw [splitNl_no_nl (by
    intro c hc
    rcases List.mem_append.mp hc with h1 | h1
    · exact (h c h1).2.2.2
    · exact (by decide : ∀ c ∈ "// filename: foo.py".toList, c ≠ '\n') c h1)]
  rw [show (5 : Nat) = 4 + 1 from rfl, List.take_succ_cons]
  rw [List.findSome?_cons]
  rw [matchCommentLine_skip _ (fun c hc => ⟨(h c hc).1, (h c hc).2.1, (h c hc).2.2.1⟩)]
  rw [show matchCommentLine "// filename: foo.py".toList = some "foo.py".toList from by decide]
  rfl

/-- Witness for the amended C9 at a concrete mid-line position. -/
theorem c9_marker_anywhere_witness :
    (∀ c ∈ "const url = http:".toList, c ≠ '/' ∧ c ≠ '#' ∧ c ≠ '<' ∧ c ≠ '\n') ∧
    fileNameFromComment (String.mk ("const url = http:".toList ++
      "// filename: foo.py".toList)) = some "foo.py" :=
  ⟨by decide, c9_marker_anywhere _ (by decide)⟩

/-- C4 counterexample: a block containing the literal text `package.json`
(but no "name"/"version" fields and no HTML/CSS/server signatures) is named
`package.json` by the code, while the spec's rule list — whose
package-manifest rule requires both fields — prescribes `script1.js`. -/
theorem c4_counterexample_package_literal :
    fileNameFromComment "const x = package.json" = none ∧
    generateFileName "const x = package.json" 0 = "package.json" ∧
    specContentFileName "const x = package.json" 0 = "script1.js" := by
  refine ⟨by decide, by decide, by decide⟩

/-- C4 as amended: for a block with no filename comment in its first 5
lines, `generateFileName` applies the content-signature rules in the spec's
fixed order with first match winning, where the package-manifest rule
additionally fires on the literal `package.json`. -/
theorem c4_content_rules_amended (cb : String) (index : Nat)
    (h : fileNameFromComment cb = none) :
    generateFileName cb index = specContentFileNameAmended cb index := by
  unfold generateFileName specContentFileNameAmended
  rw [h]

/-- Witness for the amended C4, at the spec's own HTML example. -/
theorem c4_content_rules_amended_witness :
    fileNameFromComment "<!DOCTYPE html><html></html>" = none ∧
    generateFileName "<!DOCTYPE html><html></html>" 0 =
      specContentFileNameAmended "<!DOCTYPE html><html></html>" 0 ∧
    generateFileName "<!DOCTYPE html><html></html>" 0 = "index.html" :=
  ⟨by decide, c4_content_rules_amended _ 0 (by decide), by decide⟩

/-- C5 counterexample: for the two-character input the only progress update
of the typing loop is 0 — the replay completes with the buffer full but the
reported progress at 0, not 100 — and for the empty input the loop makes no
update at all, so no progress (in particular not 100) is ever reported. -/
theorem c5_counterexample_progress :
    (Part1.typingUpdates ['a', 'b']).map Prod.snd = [0] ∧
    ((Part1.typingUpdates ['a', 'b']).getLast?).map Prod.snd = some 0 ∧
    Part1.typingUpdates [] = [] := by
  refine ⟨?_, ?_, rfl⟩
  · norm_num [Part1.typingUpdates, Part1.typingChunkStarts, List.range_succ, Function.comp]
  · norm_num [Part1.typingUpdates, Part1.typingChunkStarts, List.range_succ, Function.comp]

/-- C5 as amended: the typing simulator's reported progress is monotonically
non-decreasing and stays in `[0, 100)` — it never reaches 100, the final
update being `100 * (last chunk start) / length`; the buffer does reach the
full text at the last update; and the empty input produces no update. -/
theorem c5_typing_progress_amended (code : List Char) :
    List.Chain' (· ≤ ·) ((Part1.typingUpdates code).map Prod.snd) ∧
    (∀ p ∈ (Part1.typingUpdates code).map Prod.snd, 0 ≤ p ∧ p < 100) ∧
    ((Part1.typingUpdates code).getLast?).map Prod.fst =
      (if code = [] then none else some code) := by
  have hprog : ∀ a b : Nat, a ≤ b →
      min (((a : ℚ) / (code.length : ℚ)) * 100) 100 ≤
        min (((b : ℚ) / (code.length : ℚ)) * 100) 100 := by
    intro a b hab
    refine min_le_min (mul_le_mul_of_nonneg_right ?_ (by norm_num)) le_rfl
    exact div_le_div_of_nonneg_right (by exact_mod_cast hab) (by positivity)
  refine ⟨?_, ?_, ?_⟩
  · unfold Part1.typingUpdates Part1.typingChunkStarts
    rw [List.map_map, List.map_map]
    apply List.Pairwise.chain'
    apply List.Pairwise.map
    · intro a b hab
      exact hprog (20 * a) (20 * b) (Nat.mul_le_mul_left 20 (le_of_lt hab))
    · exact List.pairwise_lt_range _
  · intro p hp
    simp only [Part1.typingUpdates, Part1.typingChunkStarts, List.map_map, List.mem_map,
      List.mem_range, Function.comp] at hp
    obtain ⟨k, hk, hpk⟩ := hp
    subst hpk
    constructor
    · exact le_min (by positivity) (by norm_num)
    · by_cases hn : code.length = 0
      · rw [hn]
        simp
      · have h20 : 20 * k < code.length := by omega
        have hlt : ((20 * k : Nat) : ℚ) / (code.length : ℚ) < 1 := by
          rw [div_lt_one (by exact_mod_cast Nat.pos_of_ne_zero hn)]
          exact_mod_cast h20
        have : ((20 * k : Nat) : ℚ) / (code.length : ℚ) * 100 < 100 := by
          nlinarith
        calc min (((20 * k : Nat) : ℚ) / (code.length : ℚ) * 100) 100
            ≤ ((20 * k : Nat) : ℚ) / (code.length : ℚ) * 100 := min_le_left _ _
          _ < 100 := this
  · by_cases hn : code = []
    · subst hn
      rfl
    · rw [if_neg hn]
      have hlen : code.length ≠ 0 := by simpa using hn
      have hm : (code.length + 19) / 20 = ((code.length + 19) / 20 - 1) + 1 := by omega
      unfold Part1.typingUpdates Part1.typingChunkStarts
      rw [List.map_map, hm, List.range_succ, List.map_append, List.getLast?_append_of_ne_nil _ (by simp)]
      simp only [List.map_cons, List.map_nil, List.getLast?_singleton]
      have htake : code.take (20 * ((code.length + 19) / 20 - 1) + 20) = code :=
        List.take_of_length_le (by omega)
      simp [Function.comp, htake]

/-- C6 counterexample: start a replay of a 40-character text, run one chunk
(buffer holds the first 20 characters), cancel, then let the loop resume: the
next iteration still writes, leaving the buffer with all 40 characters — a
buffer mutation after the cancellation point. -/
theorem c6_counterexample_write_after_cancel :
    (Part1.cancelStep (Part1.typingStep c6Code ⟨0, [], false⟩)).cancelled = true ∧
    (Part1.cancelStep (Part1.typingStep c6Code ⟨0, [], false⟩)).bufferContent =
      "abcdefghijklmnopqrst".toList ∧
    (Part1.typingStep c6Code
        (Part1.cancelStep (Part1.typingStep c6Code ⟨0, [], false⟩))).bufferContent =
      c6Code := by
  refine ⟨rfl, by decide, by decide⟩

/-- C6 as amended: cancellation sets the token's flag but the typing loop
never consults it — one more loop iteration writes exactly the same buffer
whether or not the session was cancelled; only the per-file loop of
`handleFileGeneration` honours the token: with a cancelled token it creates
no file and leaves the mode flags unchanged. -/
theorem c6_cancellation_amended :
    (∀ (code : List Char) (st : Part1.TypingMachine),
      (Part1.typingStep code (Part1.cancelStep st)).bufferContent =
        (Part1.typingStep code st).bufferContent) ∧
    (∀ (s : SessionFlags) (r : String),
      ((Part1.handleFileGeneration s (some r) true).1.filter Part1.isFileGenEv) = [] ∧
      (Part1.handleFileGeneration s (some r) true).2.1 = s) := by
  constructor
  · intro code st
    unfold Part1.typingStep Part1.cancelStep
    by_cases h : st.pos < code.length <;> simp [h]
  · intro s r
    unfold Part1.handleFileGeneration
    constructor
    · simp [List.filter_append, Part1.isFileGenEv]
    · simp

/-- Witness for the amended C6 at a concrete machine state and session. -/
theorem c6_cancellation_amended_witness :
    (Part1.typingStep c6Code (Part1.cancelStep ⟨0, [], false⟩)).bufferContent =
      (Part1.typingStep c6Code ⟨0, [], false⟩).bufferContent ∧
    ((Part1.handleFileGeneration ⟨true, false⟩ (some "hi") true).1.filter
      Part1.isFileGenEv) = [] :=
  ⟨c6_cancellation_amended.1 c6Code ⟨0, [], false⟩,
   (c6_cancellation_amended.2 ⟨true, false⟩ "hi").1⟩

/-- Witness for the amended C5 at a concrete input. -/
theorem c5_typing_progress_amended_witness :
    List.Chain' (· ≤ ·) ((Part1.typingUpdates ['a', 'b']).map Prod.snd) ∧
    ((Part1.typingUpdates ['a', 'b']).getLast?).map Prod.fst =
      (if (['a', 'b'] : List Char) = [] then none else some ['a', 'b']) :=
  ⟨(c5_typing_progress_amended ['a', 'b']).1, (c5_typing_progress_amended ['a', 'b']).2.2⟩

/-- C7 counterexample: in the generation branch of part_000 the network call
event is the LAST event of the prefix trace — every scripted stage update,
including the final stage whose catalog progress is 100, happens strictly
before the single `/api/ask` call is issued.  This negates both halves of the
claim: the playback completes before the request is sent, and the 100% stage
is entered before (not after) the call returns. -/
theorem c7_counterexample_stages_before_call :
    Part0.genBranchPrefix.getLast? = some (Part0.GEv.apiCall "/api/ask") ∧
    (Part0.genBranchPrefix.filter Part0.isApiCallEv).length = 1 ∧
    Part0.GEv.setStageIdx 4 ∈ Part0.genBranchPrefix.dropLast ∧
    (Part0.GENERATION_STAGES[4]?).map Part0.GenerationStage.progress = some 100 := by
  refine ⟨rfl, rfl, by decide, rfl⟩

/-- C7 as amended: the scripted playback is strictly sequential — stages 0-3
each log and then await a fixed 800 ms delay, the final stage is entered and
live coding activated, and only after all of that is the network call
issued. -/
theorem c7_sequential_playback_amended :
    Part0.genBranchPrefix =
      [Part0.GEv.setStageIdx 0, Part0.GEv.logStage 0, Part0.GEv.sleep 800,
       Part0.GEv.setStageIdx 1, Part0.GEv.logStage 1, Part0.GEv.sleep 800,
       Part0.GEv.setStageIdx 2, Part0.GEv.logStage 2, Part0.GEv.sleep 800,
       Part0.GEv.setStageIdx 3, Part0.GEv.logStage 3, Part0.GEv.sleep 800,
       Part0.GEv.setStageIdx 4, Part0.GEv.setLiveActive true,
       Part0.GEv.apiCall "/api/ask"] := rfl

theorem attemptRun_fail_flags {s : SessionFlags} {input : String} {oc : Option String}
    (h : (Part1.attemptRun s input oc).2.2 = false) :
    (Part1.attemptRun s input oc).2.1 = s := by
  unfold Part1.attemptRun Part1.handleFileGeneration Part1.handleChatResponse at *
  by_cases hk : Part1.isCodeGenerationRequest input <;> cases oc <;> simp_all

theorem attemptRun_flags_cases (s : SessionFlags) (input : String) (oc : Option String) :
    (Part1.attemptRun s input oc).2.1 = s ∨
      (Part1.attemptRun s input oc).2.1 = ⟨false, true⟩ := by
  by_cases hk : Part1.isCodeGenerationRequest input
  · cases oc with
    | none => left; simp [Part1.attemptRun, Part1.handleFileGeneration, hk]
    | some r =>
      by_cases hb : scanBlocks r.data = []
      · left
        simp [Part1.attemptRun, Part1.handleFileGeneration, hk, hb]
      · right
        have hb2 : 0 < (scanBlocks r.data).length := List.length_pos.mpr hb
        simp [Part1.attemptRun, Part1.handleFileGeneration, hk, hb2, hb]
  · left
    simp [Part1.attemptRun, hk]

theorem filter_fileGen_map {α : Type} (l : List α) (g : α → String) :
    (l.map (fun x => Part1.Ev.fileGen (g x))).filter Part1.isFileGenEv =
      l.map (fun x => Part1.Ev.fileGen (g x)) := by
  induction l with
  | nil => rfl
  | cons x t ih => simp [Part1.isFileGenEv, ih]

theorem attemptRun_change_files {s : SessionFlags} {input : String} {oc : Option String}
    (h : (Part1.attemptRun s input oc).2.1 ≠ s) :
    (Part1.attemptRun s input oc).1.filter Part1.isFileGenEv ≠ [] := by
  by_cases hk : Part1.isCodeGenerationRequest input
  · cases oc with
    | none =>
      exfalso
      exact h (by simp [Part1.attemptRun, Part1.handleFileGeneration, hk])
    | some r =>
      by_cases hb : scanBlocks r.data = []
      · exfalso
        exact h (by simp [Part1.attemptRun, Part1.handleFileGeneration, hk, hb])
      · have hb2 : 0 < (scanBlocks r.data).length := List.length_pos.mpr hb
        simp [Part1.attemptRun, Part1.handleFileGeneration, hk, hb2, List.filter_append,
          Part1.isFileGenEv, filter_fileGen_map, hb]
  · exfalso
    exact h (by simp [Part1.attemptRun, hk])

theorem retryLoopAux_flags (input : String) (o : Nat → Option String) :
    ∀ (fuel : Nat) (s : SessionFlags) (i : Nat),
      (Part1.retryLoopAux input o fuel s i).2.1 = s ∨
        (Part1.retryLoopAux input o fuel s i).2.1 = ⟨false, true⟩ := by
  intro fuel
  induction fuel with
  | zero => intro s i; left; rfl
  | succ fuel ih =>
    intro s i
    simp only [Part1.retryLoopAux]
    by_cases ha : (Part1.attemptRun s input (o i)).2.2
    · simp only [ha, if_true]
      exact attemptRun_flags_cases s input (o i)
    · simp only [Bool.not_eq_true] at ha
      have hfa := attemptRun_fail_flags ha
      simp only [ha, Bool.false_eq_true, if_false]
      by_cases hf : fuel = 0
      · simp only [hf, if_true]
        left
        exact hfa
      · simp only [hf, if_false]
        rw [hfa]
        exact ih s (i + 1)

theorem retryLoopAux_change_files (input : String) (o : Nat → Option String) :
    ∀ (fuel : Nat) (s : SessionFlags) (i : Nat),
      (Part1.retryLoopAux input o fuel s i).2.1 ≠ s →
        (Part1.retryLoopAux input o fuel s i).1.filter Part1.isFileGenEv ≠ [] := by
  intro fuel
  induction fuel with
  | zero => intro s i h; exact absurd rfl h
  | succ fuel ih =>
    intro s i h
    simp only [Part1.retryLoopAux] at h ⊢
    by_cases ha : (Part1.attemptRun s input (o i)).2.2
    · simp only [ha, if_true] at h ⊢
      exact attemptRun_change_files h
    · simp only [Bool.not_eq_true] at ha
      have hfa := attemptRun_fail_flags ha
      simp only [ha, Bool.false_eq_true, if_false] at h ⊢
      by_cases hf : fuel = 0
      · simp only [hf, if_true] at h ⊢
        exact absurd hfa (by simpa using h)
      · simp only [hf, if_false] at h ⊢
        rw [hfa] at h ⊢
        have hrec := ih s (i + 1) h
        simp only [List.filter_append, List.filter_cons]
        simp only [show Part1.isFileGenEv (Part1.Ev.sleep (1000 * 2 ^ i)) = false from rfl]
        intro e
        rcases List.append_eq_nil.mp e with ⟨e1, e2⟩
        exact hrec e2

/-- C10: a generation-routed submission whose network call succeeds but whose
response contains zero fenced blocks leaves both mode flags unchanged; and
whenever a run changes the flags at all, at least one `onFileGenerated`
callback was emitted — the generation-to-chat flip happens only in a round
that creates at least one file. -/
theorem c10_zero_blocks_frame (s : SessionFlags) (input : String)
    (o : Nat → Option String) (r : String) :
    (Part1.isCodeGenerationRequest input = true → o 0 = some r →
      scanBlocks r.data = [] → (Part1.handleAIResponse s input o).2 = s) ∧
    ((Part1.handleAIResponse s input o).2 ≠ s →
      (Part1.handleAIResponse s input o).1.filter Part1.isFileGenEv ≠ []) := by
  constructor
  · intro hk ho hb
    have ha2 : (Part1.attemptRun s input (o 0)).2 = (s, true) := by
      rw [ho]
      simp [Part1.attemptRun, Part1.handleFileGeneration, hk, hb]
    simp only [Part1.handleAIResponse, Part1.retryRun, Part1.retryLoopAux, ha2]
    simp
  · intro h
    simp only [Part1.handleAIResponse, Part1.retryRun] at h ⊢
    by_cases hc : (Part1.retryLoopAux input o 4 s 0).2.2
    · simp only [hc, if_true] at h ⊢
      have hne := retryLoopAux_change_files input o 4 s 0 h
      simpa [List.filter_append, Part1.isFileGenEv] using hne
    · simp only [hc, Bool.false_eq_true, if_false] at h ⊢
      have hne := retryLoopAux_change_files input o 4 s 0 h
      simpa [List.filter_append, Part1.isFileGenEv] using hne

/-- Witness for C10: a "build" prompt answered by plain text (no fenced
block) leaves the session in generation mode. -/
theorem c10_zero_blocks_frame_witness :
    Part1.isCodeGenerationRequest "build x" = true ∧
    (Part1.handleAIResponse ⟨true, false⟩ "build x" (fun _ => some "hello")).2 =
      ⟨true, false⟩ :=
  ⟨by decide,
   (c10_zero_blocks_frame ⟨true, false⟩ "build x" (fun _ => some "hello") "hello").1
     (by decide) rfl (by decide)⟩

/-- C2 counterexample: the first submission ("build a todo app") completes a
generation round and flips the flags to chat mode; yet the second submission
("build a calculator"), issued in chat mode, still emits an
`onFileGenerated` event — part_001 routes by keyword detection, so a second
build-keyword message re-enters the file-generation path. -/
theorem c2_counterexample_retrigger :
    (Part1.handleAIResponse ⟨true, false⟩ "build a todo app" c2Outcomes).2 =
      ⟨false, true⟩ ∧
    ((Part1.handleAIResponse ⟨false, true⟩ "build a calculator" c2Outcomes).1.filter
      Part1.isFileGenEv).length = 1 := by
  refine ⟨by decide, by decide⟩

theorem head?_append_of_head? {α : Type} {l m : List α} {x : α}
    (h : l.head? = some x) : (l ++ m).head? = some x := by
  cases l <;> simp_all

/-- C2 as amended: in both components the mode flags never revert (a session
in chat mode stays in chat mode, a completed generation stays completed); in
part_000 a session out of generation mode emits no file-generation events;
but in part_001 routing is by keyword detection alone — a submission with a
build keyword enters the file-generation branch (its first effect is the
`setCurrentStage` of `handleFileGeneration`) regardless of the mode flags. -/
theorem c2_mode_monotone_amended (s : SessionFlags) (input : String)
    (o : Nat → Option String) (r : Option String) :
    (s.isGenerationMode = false →
      (Part1.handleAIResponse s input o).2.isGenerationMode = false) ∧
    (s.generationComplete = true →
      (Part1.handleAIResponse s input o).2.generationComplete = true) ∧
    (s.isGenerationMode = false →
      (Part0.handleAIResponse s r).2.isGenerationMode = false) ∧
    (s.generationComplete = true →
      (Part0.handleAIResponse s r).2.generationComplete = true) ∧
    (s.generationComplete = true →
      (Part0.handleAIResponse s r).1.filter Part0.isFileGenEv = []) ∧
    (Part1.isCodeGenerationRequest input = true →
      (Part1.handleAIResponse s input o).1.head? =
        some (Part1.Ev.setStage "Generating code...")) := by
  have hflags : (Part1.handleAIResponse s input o).2 =
      (Part1.retryLoopAux input o 4 s 0).2.1 := by
    by_cases hc : (Part1.retryLoopAux input o 4 s 0).2.2 <;>
      simp [Part1.handleAIResponse, Part1.retryRun, hc]
  have hcases := retryLoopAux_flags input o 4 s 0
  refine ⟨?_, ?_, ?_, ?_, ?_, ?_⟩
  · intro h
    rw [hflags]
    rcases hcases with he | he
    · rw [he]
      exact h
    · rw [he]
  · intro h
    rw [hflags]
    rcases hcases with he | he
    · rw [he]
      exact h
    · rw [he]
  · intro h
    have : (s.isGenerationMode && !s.generationComplete) = false := by simp [h]
    cases r <;> simp [Part0.handleAIResponse, this, h]
  · intro h
    have : (s.isGenerationMode && !s.generationComplete) = false := by simp [h]
    cases r <;> simp [Part0.handleAIResponse, this, h]
  · intro h
    have : (s.isGenerationMode && !s.generationComplete) = false := by simp [h]
    cases r <;> simp [Part0.handleAIResponse, this, Part0.isFileGenEv]
  · intro hk
    have ha1 : (Part1.attemptRun s input (o 0)).1.head? =
        some (Part1.Ev.setStage "Generating code...") := by
      cases ho : o 0 <;>
        simp [Part1.attemptRun, Part1.handleFileGeneration, hk, ho]
    have hretry : (Part1.retryLoopAux input o 4 s 0).1.head? =
        some (Part1.Ev.setStage "Generating code...") := by
      simp only [Part1.retryLoopAux]
      by_cases ha : (Part1.attemptRun s input (o 0)).2.2
      · simp only [ha, if_true]
        exact ha1
      · simp only [ha, Bool.false_eq_true, if_false]
        rw [if_neg (by decide : ¬(3 : Nat) = 0)]
        exact head?_append_of_head? ha1
    by_cases hc : (Part1.retryLoopAux input o 4 s 0).2.2 <;>
      simp only [Part1.handleAIResponse, Part1.retryRun, hc, if_true,
        Bool.false_eq_true, if_false] <;>
      exact head?_append_of_head? hretry

/-- Witness for the amended C2: a chat-mode session stays in chat mode, and
a keyword submission still enters the generation branch first. -/
theorem c2_mode_monotone_amended_witness :
    (Part1.handleAIResponse ⟨false, true⟩ "build x" (fun _ => some "hi")).2.isGenerationMode
      = false ∧
    (Part1.handleAIResponse ⟨false, true⟩ "build x" (fun _ => some "hi")).1.head? =
      some (Part1.Ev.setStage "Generating code...") :=
  ⟨(c2_mode_monotone_amended ⟨false, true⟩ "build x" (fun _ => some "hi") none).1 rfl,
   (c2_mode_monotone_amended ⟨false, true⟩ "build x" (fun _ => some "hi") none).2.2.2.2.2
     (by decide)⟩

theorem filter_map_fileGen {α : Type} (l : List α) (g : α → String) (p : Part1.Ev → Bool)
    (hp : ∀ n, p (Part1.Ev.fileGen n) = false) :
    (l.map (fun x => Part1.Ev.fileGen (g x))).filter p = [] := by
  induction l with
  | nil => rfl
  | cons x t ih => simp_all

theorem attempt_none_result (s : SessionFlags) (input : String) :
    (Part1.attemptRun s input none).2 = (s, false) := by
  by_cases hk : Part1.isCodeGenerationRequest input <;>
    simp [Part1.attemptRun, Part1.handleFileGeneration, Part1.handleChatResponse, hk]

theorem attempt_some_ok (s : SessionFlags) (input : String) (r : String) :
    (Part1.attemptRun s input (some r)).2.2 = true := by
  by_cases hk : Part1.isCodeGenerationRequest input <;>
    simp [Part1.attemptRun, Part1.handleFileGeneration, Part1.handleChatResponse, hk]

theorem attempt_filters (s : SessionFlags) (input : String) (oc : Option String) :
    ((Part1.attemptRun s input oc).1.filter Part1.isErrorMsgEv) = [] ∧
    ((Part1.attemptRun s input oc).1.filter Part1.isFetchEv) =
      [Part1.Ev.fetchAttempt "/api/claude-proxy"] ∧
    ((Part1.attemptRun s input oc).1.filter Part1.isSleepEv) = [] := by
  by_cases hk : Part1.isCodeGenerationRequest input
  · cases oc with
    | none =>
      simp [Part1.attemptRun, Part1.handleFileGeneration, hk,
        Part1.isErrorMsgEv, Part1.isFetchEv, Part1.isSleepEv]
    | some r =>
      by_cases hb : scanBlocks r.data = []
      · simp [Part1.attemptRun, Part1.handleFileGeneration, hk, hb,
          Part1.isErrorMsgEv, Part1.isFetchEv, Part1.isSleepEv, List.filter_append]
      · have hb2 : 0 < (scanBlocks r.data).length := List.length_pos.mpr hb
        have hbe : (scanBlocks r.data).isEmpty = false := by
          cases hsc : scanBlocks r.data with
          | nil => exact absurd hsc hb
          | cons a t => rfl
        simp [Part1.attemptRun, Part1.handleFileGeneration, hk, hb2, hbe,
          Part1.isErrorMsgEv, Part1.isFetchEv, Part1.isSleepEv, List.filter_append,
          filter_map_fileGen]
  · cases oc <;>
      simp [Part1.attemptRun, Part1.handleChatResponse, hk,
        Part1.isErrorMsgEv, Part1.isFetchEv, Part1.isSleepEv]

theorem attempt_none_no_fileGen (s : SessionFlags) (input : String) :
    ((Part1.attemptRun s input none).1.filter Part1.isFileGenEv) = [] := by
  by_cases hk : Part1.isCodeGenerationRequest input <;>
    simp [Part1.attemptRun, Part1.handleFileGeneration, Part1.handleChatResponse, hk,
      Part1.isFileGenEv]

theorem retry_step_fail (input : String) (o : Nat → Option String) (fuel i : Nat)
    (hf : fuel ≠ 0) (s : SessionFlags) (h : o i = none) :
    Part1.retryLoopAux input o (fuel + 1) s i =
      ((Part1.attemptRun s input none).1 ++ Part1.Ev.sleep (1000 * 2 ^ i) ::
        (Part1.retryLoopAux input o fuel s (i + 1)).1,
       (Part1.retryLoopAux input o fuel s (i + 1)).2) := by
  have hn := attempt_none_result s input
  simp only [Part1.retryLoopAux, h]
  rw [show (Part1.attemptRun s input none).2.2 = false from by rw [hn]]
  rw [show (Part1.attemptRun s input none).2.1 = s from by rw [hn]]
  simp [hf]

theorem retry_last_attempt (input : String) (o : Nat → Option String) (i : Nat)
    (s : SessionFlags) :
    Part1.retryLoopAux input o 1 s i =
      ((Part1.attemptRun s input (o i)).1, (Part1.attemptRun s input (o i)).2) := by
  by_cases ha : (Part1.attemptRun s input (o i)).2.2
  · simp only [Part1.retryLoopAux, ha, if_true]
    rw [← ha]
  · simp only [Bool.not_eq_true] at ha
    simp only [Part1.retryLoopAux, ha, Bool.false_eq_true, if_false, if_pos rfl]
    rw [← ha]
    simp

/-- C8 as amended: the `useRetry` loop gives the network call a budget of 4
attempts with exponential backoff delays of 1000, 2000 and 4000 ms, but each
retry re-runs the whole routed branch from its start (re-emitting its local
pre-network effects), not only the network call; when every attempt fails,
exactly one error-kind message is appended and no `onFileGenerated` callback
fires; when the final attempt succeeds, no error message is appended. -/
theorem c8_retry_behavior_amended (input : String) (o : Nat → Option String)
    (s : SessionFlags) (r : String) :
    (o 0 = none → o 1 = none → o 2 = none → o 3 = none →
      ((Part1.handleAIResponse s input o).1.filter Part1.isErrorMsgEv).length = 1 ∧
      ((Part1.handleAIResponse s input o).1.filter Part1.isFileGenEv) = [] ∧
      ((Part1.handleAIResponse s input o).1.filter Part1.isSleepEv) =
        [Part1.Ev.sleep 1000, Part1.Ev.sleep 2000, Part1.Ev.sleep 4000] ∧
      ((Part1.handleAIResponse s input o).1.filter Part1.isFetchEv).length = 4) ∧
    (o 0 = none → o 1 = none → o 2 = none → o 3 = some r →
      ((Part1.handleAIResponse s input o).1.filter Part1.isErrorMsgEv) = [] ∧
      ((Part1.handleAIResponse s input o).1.filter Part1.isSleepEv) =
        [Part1.Ev.sleep 1000, Part1.Ev.sleep 2000, Part1.Ev.sleep 4000] ∧
      ((Part1.handleAIResponse s input o).1.filter Part1.isFetchEv).length = 4) := by
  constructor
  · intro h0 h1 h2 h3
    have e4 := retry_step_fail input o 3 0 (by decide) s h0
    have e3 := retry_step_fail input o 2 1 (by decide) s h1
    have e2 := retry_step_fail input o 1 2 (by decide) s h2
    have e1 := retry_last_attempt input o 3 s
    rw [h3] at e1
    norm_num at e4 e3 e2
    have hn := attempt_none_result s input
    have hfe := attempt_filters s input none
    have hfg := attempt_none_no_fileGen s input
    simp only [Part1.handleAIResponse, Part1.retryRun, e4, e3, e2, e1, hn]
    simp [List.filter_append, hfe.1, hfe.2.1, hfe.2.2, hfg,
      Part1.isErrorMsgEv, Part1.isFileGenEv, Part1.isSleepEv, Part1.isFetchEv]
  · intro h0 h1 h2 h3
    have e4 := retry_step_fail input o 3 0 (by decide) s h0
    have e3 := retry_step_fail input o 2 1 (by decide) s h1
    have e2 := retry_step_fail input o 1 2 (by decide) s h2
    have e1 := retry_last_attempt input o 3 s
    rw [h3] at e1
    norm_num at e4 e3 e2
    have hok := attempt_some_ok s input r
    have hfe := attempt_filters s input none
    have hfr := attempt_filters s input (some r)
    simp only [Part1.handleAIResponse, Part1.retryRun, e4, e3, e2, e1, hok]
    simp [List.filter_append, hfe.1, hfe.2.1, hfe.2.2, hfr.1, hfr.2.1, hfr.2.2,
      Part1.isErrorMsgEv, Part1.isSleepEv, Part1.isFetchEv]

/-- Witness for the amended C8: all four attempts fail with a transport
error; exactly one error message, no file side effects, three exponential
backoff sleeps. -/
theorem c8_retry_behavior_amended_witness :
    ((Part1.handleAIResponse ⟨true, false⟩ "build x" (fun _ => none)).1.filter
        Part1.isErrorMsgEv).length = 1 ∧
    ((Part1.handleAIResponse ⟨true, false⟩ "build x" (fun _ => none)).1.filter
        Part1.isFileGenEv) = [] ∧
    ((Part1.handleAIResponse ⟨true, false⟩ "build x" (fun _ => none)).1.filter
        Part1.isSleepEv) = [Part1.Ev.sleep 1000, Part1.Ev.sleep 2000, Part1.Ev.sleep 4000] ∧
    ((Part1.handleAIResponse ⟨true, false⟩ "build x" (fun _ => none)).1.filter
        Part1.isFetchEv).length = 4 :=
  (c8_retry_behavior_amended "build x" (fun _ => none) ⟨true, false⟩ "hi").1
    rfl rfl rfl rfl

/-- C8 counterexample: with one failed fetch and a successful retry, the
trace of a single submission contains the branch's local pre-network effects
TWICE — `setCurrentStage` and the info log are re-executed along with the
second fetch — so the retry re-runs the enclosing branch, not only the
network call itself.  (No error message is appended and one backoff sleep of
1000 ms occurs.) -/
theorem c8_counterexample_branch_retried :
    ((Part1.handleAIResponse ⟨true, false⟩ "build x" c8Outcomes).1.filter
      Part1.isSetStageEv).length = 2 ∧
    ((Part1.handleAIResponse ⟨true, false⟩ "build x" c8Outcomes).1.filter
      Part1.isFetchEv).length = 2 ∧
    ((Part1.handleAIResponse ⟨true, false⟩ "build x" c8Outcomes).1.filter
      Part1.isErrorMsgEv) = [] ∧
    ((Part1.handleAIResponse ⟨true, false⟩ "build x" c8Outcomes).1.filter
      Part1.isSleepEv) = [Part1.Ev.sleep 1000] := by
  refine ⟨by decide, by decide, by decide, by decide⟩
